import Mathlib

set_option maxRecDepth 200000

/-!
Verification development for a two-tool repository:
tool 1 (`GET_DECIMALS/get_decimals.py`) enriches a table of
(network, contract address) rows with the ERC20 `decimals()` value fetched
over JSON-RPC; tool 2 (`GET_POOL/token_data_fetcher.py`) enriches such a
table with (FDV, Liquidity, 24h Volume) strings scraped from an HTML page
using a chain of extraction strategies, run by a thread pool that writes
results back by row index under a lock.

The Python sources are shallowly embedded below: pure string processing is
translated to executable Lean functions on `String`/`List Char`; network
responses are passed in as explicit values; the thread pool's completion
order is an explicit parameter; the lock discipline is a small-step
transition relation.
-/

namespace CrossChain

/-! ## Shared basics: Python string helpers -/

/-- Python whitespace characters relevant to `str.strip()` and `int()`
(ASCII fragment, which covers every string manipulated here). -/
def isPySpaceB (c : Char) : Bool :=
  c = ' ' || c = '\t' || c = '\n' || c = '\r' || c = '\x0b' || c = '\x0c'

/-- Python `str.strip()` on a character list: drop whitespace from both ends. -/
def pyStripL (cs : List Char) : List Char :=
  ((cs.dropWhile isPySpaceB).reverse.dropWhile isPySpaceB).reverse

/-- Python `str.strip()`. -/
def pyStrip (s : String) : String :=
  String.mk (pyStripL s.toList)

/-- Python truthiness of a string: `s or "0"` yields `"0"` exactly on `""`. -/
def orZero (s : String) : String :=
  if s = "" then "0" else s

/-- Python `x or "0"` where `x : Optional[str]`: `None` and `""` are falsy. -/
def orZeroO : Option String → String
  | none => "0"
  | some s => orZero s

/-- Python falsiness test for an `Optional[str]` (`not x`). -/
def optFalsy : Option String → Bool
  | none => true
  | some s => s = ""

/-- ASCII lowercasing: Python `str.lower()` and the `re.IGNORECASE`
folding, on the ASCII strings in scope. -/
def toLowerA (c : Char) : Char :=
  if 'A' ≤ c ∧ c ≤ 'Z' then Char.ofNat (c.toNat + 32) else c

/-- Python `str.lower()` (ASCII fragment). -/
def pyLower (s : String) : String :=
  String.mk (s.toList.map toLowerA)

/-! ## GET_DECIMALS/get_decimals.py: hex decoding (`DecimalsFetcher.hex_to_decimal`)

`hex_to_decimal` strips one literal `'0x'` prefix, strips leading `'0'`
characters, substitutes `"0"` for an emptied string, and calls Python
`int(x, 16)`, returning 18 on a parse failure.  `int(x, 16)` itself accepts
surrounding whitespace, an optional sign, an optional `0x`/`0X` prefix, and
single underscores between digits (one also allowed right after the
prefix), so it is embedded in full. -/

/-- Value of a hexadecimal digit, `none` for any other character. -/
def hexVal? (c : Char) : Option Nat :=
  if '0' ≤ c ∧ c ≤ '9' then some (c.toNat - '0'.toNat)
  else if 'a' ≤ c ∧ c ≤ 'f' then some (c.toNat - 'a'.toNat + 10)
  else if 'A' ≤ c ∧ c ≤ 'F' then some (c.toNat - 'A'.toNat + 10)
  else none

/-- Whether a character is a hexadecimal digit. -/
def isHexDigitB (c : Char) : Bool :=
  (hexVal? c).isSome

/-- One big-endian accumulation step (non-digits count as 0; all callers
establish that every character is a digit). -/
def hexStep (a : Nat) (c : Char) : Nat :=
  16 * a + (hexVal? c).getD 0

/-- Big-endian value of a list of hex digits. -/
def hexDigitsVal (l : List Char) : Nat :=
  l.foldl hexStep 0

/-- Strip Python whitespace from both ends (the first step of `int()`). -/
def trimWs (cs : List Char) : List Char :=
  ((cs.dropWhile isPySpaceB).reverse.dropWhile isPySpaceB).reverse

/-- Optional sign, as consumed by Python `int()`. -/
def parseSign : List Char → Int × List Char
  | [] => (1, [])
  | c :: r => if c = '+' then (1, r) else if c = '-' then (-1, r) else (1, c :: r)

/-- Optional `0x`/`0X` base marker, as consumed by Python `int(_, 16)`;
the boolean reports whether the marker was present. -/
def dropHexPre : List Char → Bool × List Char
  | [] => (false, [])
  | [c] => (false, [c])
  | c1 :: c2 :: r =>
    if c1 = '0' ∧ (c2 = 'x' ∨ c2 = 'X') then (true, r) else (false, c1 :: c2 :: r)

/-- Digit run with single underscores strictly between digits: continuation
after at least one digit has been read (`acc` is its value so far). -/
def parseRest (acc : Nat) : List Char → Option Nat
  | [] => some acc
  | c :: r =>
    if c = '_' then
      match r with
      | [] => none
      | c2 :: r2 =>
        match hexVal? c2 with
        | some d => parseRest (16 * acc + d) r2
        | none => none
    else
      match hexVal? c with
      | some d => parseRest (16 * acc + d) r
      | none => none

/-- Nonempty digit run, first character must be a digit. -/
def parseCore : List Char → Option Nat
  | [] => none
  | c :: r =>
    match hexVal? c with
    | some d => parseRest d r
    | none => none

/-- Digit part of a base-16 literal; one leading underscore is permitted
only directly after a `0x` marker. -/
def parseDigits (hadPre : Bool) (l : List Char) : Option Nat :=
  match l with
  | [] => none
  | c :: r => if c = '_' then (if hadPre then parseCore r else none) else parseCore (c :: r)

/-- Python `int(s, 16)`: `none` models the `ValueError` path. -/
def pyIntHex16 (cs : List Char) : Option Int :=
  match parseDigits (dropHexPre (parseSign (trimWs cs)).2).1
      (dropHexPre (parseSign (trimWs cs)).2).2 with
  | some n => some ((parseSign (trimWs cs)).1 * (n : Int))
  | none => none

/-- The test `hex_result.startswith('0x')` with the matching slice
`hex_result[2:]`: strip one literal, case-sensitive `'0x'` mark. -/
def stripHexMark (cs : List Char) : List Char :=
  if cs.take 2 = ['0', 'x'] then cs.drop 2 else cs

/-- The string transformation `hex_to_decimal` applies before parsing:
strip one literal `'0x'` prefix (case-sensitive, `hex_result[2:]`), strip
leading `'0'` characters (`lstrip('0')`), substitute `"0"` for an empty
remainder. -/
def hexTransform (s : String) : List Char :=
  if (stripHexMark s.toList).dropWhile (· = '0') = [] then ['0']
  else (stripHexMark s.toList).dropWhile (· = '0')

/-- `DecimalsFetcher.hex_to_decimal`: convert the RPC result to an integer,
returning the default 18 when `int(_, 16)` raises. -/
def hex_to_decimal (s : String) : Int :=
  match pyIntHex16 (hexTransform s) with
  | some v => v
  | none => 18

/-- Spec-side notion of a hex string, from the claim's words: optional
literal `0x` prefix followed by hexadecimal digits (nonempty when there is
no prefix), leading zeros tolerated. -/
def specHexString (s : String) : Bool :=
  if s.toList.take 2 = ['0', 'x'] then (s.toList.drop 2).all isHexDigitB
  else s.toList ≠ [] && s.toList.all isHexDigitB

/-- Big-endian value of a spec-side hex string (digits after the optional
`0x` prefix). -/
def hexStringValue (s : String) : Int :=
  (hexDigitsVal (stripHexMark s.toList) : Int)

/-- Strings whose characters after an optional literal `0x` prefix are all
`'0'` (including the bare `"0x"` and the empty string). -/
def allZerosHex (s : String) : Bool :=
  (stripHexMark s.toList).all (· = '0')

/-! ## GET_DECIMALS/get_decimals.py: RPC plumbing and row processing -/

/-- The JSON-RPC response as far as `call_contract_method` inspects it:
HTTP status and the `result` field of the body (`none` when absent). -/
structure RpcResponse where
  status : Nat
  result : Option String
  deriving DecidableEq

/-- The `eth_call` request `get_token_decimals` would issue: endpoint URL,
`to` address and `data` selector. -/
structure RpcRequest where
  url : String
  toAddr : String
  callData : String
  deriving DecidableEq

/-- `DecimalsFetcher.rpc_endpoints`. -/
def rpc_endpoints : List (String × String) :=
  [("ethereum", "https://eth.llamarpc.com"),
   ("bsc", "https://bsc-dataseed.binance.org"),
   ("polygon", "https://polygon-rpc.com"),
   ("arbitrum", "https://arb1.arbitrum.io/rpc"),
   ("avalanche", "https://api.avax.network/ext/bc/C/rpc"),
   ("fantom", "https://rpc.ftm.tools"),
   ("optimism", "https://mainnet.optimism.io"),
   ("base", "https://mainnet.base.org")]

/-- `DecimalsFetcher.get_rpc_endpoint`: case-insensitive endpoint lookup. -/
def get_rpc_endpoint (network : String) : Option String :=
  rpc_endpoints.lookup (pyLower network)

/-- `DecimalsFetcher.decimals_signature`. -/
def decimals_signature : String := "0x313ce567"

/-- `DecimalsFetcher.call_contract_method`, given the response of the one
`requests.post` it performs (`none` models a raised transport exception):
returns the `result` field on a 200 status when present and truthy. -/
def call_contract_method (resp : Option RpcResponse) : Option String :=
  match resp with
  | none => none
  | some r =>
    if r.status = 200 then
      match r.result with
      | some s => if s = "" then none else some s
      | none => none
    else none

/-- The request `get_token_decimals` builds: the address gains a `0x`
prefix when it lacks one, and the data is the `decimals()` selector. -/
def requestFor (url address : String) : RpcRequest :=
  ⟨url, if address.toList.take 2 = ['0', 'x'] then address else "0x" ++ address,
   decimals_signature⟩

/-- `DecimalsFetcher.get_token_decimals`, with the network's reply passed
in as `resp`.  Returns the decimals value together with the request that
was issued (`none` when no endpoint is known, in which case the source
returns 18 before any request). -/
def get_token_decimals (network address : String) (resp : Option RpcResponse) :
    Int × Option RpcRequest :=
  match get_rpc_endpoint network with
  | none => (18, none)
  | some url =>
    match call_contract_method resp with
    | some result => (hex_to_decimal result, some (requestFor url address))
    | none => (18, some (requestFor url address))

/-- An input spreadsheet cell as `str(row.iloc[k])` sees it: a missing
cell is pandas NaN, which stringifies to `"nan"`. -/
inductive Cell where
  | nan : Cell
  | str (s : String) : Cell
  deriving DecidableEq

/-- Python `str(cell)`. -/
def cellToStr : Cell → String
  | .nan => "nan"
  | .str s => s

/-- Python `pd.isna(cell)` on the raw cell value. -/
def cellIsNa : Cell → Bool
  | .nan => true
  | .str _ => false

/-- Loop body of `DecimalsFetcher.process_excel` for one row: stringify and
strip both cells, skip the row with default 18 when either equals `"nan"`
(the `pd.isna` tests in the source run on the already-stringified values
and can never fire), otherwise call `get_token_decimals`. -/
def process_excel_row (netC addrC : Cell) (resp : Option RpcResponse) :
    Int × Option RpcRequest :=
  if pyStrip (cellToStr netC) = "nan" ∨ pyStrip (cellToStr addrC) = "nan" then (18, none)
  else get_token_decimals (pyStrip (cellToStr netC)) (pyStrip (cellToStr addrC)) resp

/-! ## GET_POOL/token_data_fetcher.py: extraction strategy 1
(`TokenDataFetcher.extract_all_values_by_pattern`)

The strategy runs `re.findall` with the literal pattern
`</svg></span></div><dd class="static-box-value"><span class="sc-65e7f566-0 bxaIIt base-text"><span>([^<]+)</span></span>`
(no flags).  The pattern is a literal prefix, a greedy nonempty run of
characters other than `<` (the capture), and a literal suffix beginning
with `<`; since the capture cannot contain `<` and the suffix starts with
`<`, matching at a position is deterministic: the capture is exactly the
maximal run of non-`<` characters after the prefix, and the suffix must
follow it immediately.  `re.findall` scans positions left to right and
resumes after the end of each match. -/

/-- The literal part of the strategy-1 pattern before the capture group. -/
def markerPat : List Char :=
  ("</svg></span></div><dd class=\"static-box-value\">" ++
   "<span class=\"sc-65e7f566-0 bxaIIt base-text\"><span>").toList

/-- The literal part of the strategy-1 pattern after the capture group. -/
def closePat : List Char := "</span></span>".toList

/-- Match a literal pattern at the head of `s`, optionally
case-insensitively, returning the remainder on success. -/
def litMatch (ci : Bool) : List Char → List Char → Option (List Char)
  | [], s => some s
  | _ :: _, [] => none
  | p :: ps, c :: cs =>
    if (if ci then toLowerA p = toLowerA c else p = c) then litMatch ci ps cs else none

/-- Match the full structural pattern (marker, nonempty non-`<` capture,
closing tags) at the head of `s`; returns the capture and the remainder
after the whole match. -/
def structAt (ci : Bool) (s : List Char) : Option (List Char × List Char) :=
  match litMatch ci markerPat s with
  | none => none
  | some r =>
    let cap := r.takeWhile (· ≠ '<')
    let r2 := r.dropWhile (· ≠ '<')
    if cap = [] then none
    else
      match litMatch ci closePat r2 with
      | none => none
      | some r3 => some (cap, r3)

/-- Left-to-right non-overlapping scan of `re.findall`, collecting all
captures.  The fuel argument only certifies termination: each recursive
call consumes at least one character, so `s.length` fuel always suffices. -/
def findAllAux : Nat → List Char → List (List Char)
  | 0, _ => []
  | _ + 1, [] => []
  | fuel + 1, c :: rest =>
    match structAt false (c :: rest) with
    | some (cap, r) => cap :: findAllAux fuel r
    | none => findAllAux fuel rest

/-- All strategy-1 captures of a document, in document order. -/
def findAllMarker (s : List Char) : List (List Char) :=
  findAllAux s.length s

/-- `TokenDataFetcher.extract_all_values_by_pattern`: succeed only when
the pattern matched exactly three times, assigning the stripped captures
positionally to (fdv, liquidity, volume24h); otherwise `("0","0","0")`. -/
def extract_all_values_by_pattern (html : String) : String × String × String :=
  match findAllMarker html.toList with
  | [m1, m2, m3] => (String.mk (pyStripL m1), String.mk (pyStripL m2), String.mk (pyStripL m3))
  | _ => ("0", "0", "0")

/-! ## GET_POOL: extraction strategy 2 (`TokenDataFetcher.extract_value_by_pattern`)

For a given label the source first searches (with `re.IGNORECASE` and
`re.DOTALL`) for the label followed anywhere later by the structural
pattern, capturing that occurrence's value; failing that it tries three
backup patterns in order: `label[^>]*>([^<]+)<`, `"label"[^>]*>([^<]+)<`
and `class="[^"]*lbl[^"]*"[^>]*>([^<]+)<` (with `lbl` the lowercased
label), all case-insensitive.  Greedy character classes bounded by the
literal that follows them make each position's match deterministic, and
`re.search` takes the leftmost matching position; for the label pattern
the lazy `.*?` selects the first structural occurrence after the label. -/

/-- Scan positions left to right, returning the first position's capture
where the positional matcher `f` succeeds (the semantics of `re.search`
over a pattern whose per-position match is deterministic). -/
def scanFor (f : List Char → Option (List Char)) : List Char → Option (List Char)
  | [] => f []
  | c :: rest =>
    match f (c :: rest) with
    | some cap => some cap
    | none => scanFor f rest

/-- First structural-pattern capture, case-insensitive (the lazy `.*?`
of the label pattern selects the earliest occurrence). -/
def findStructIC (s : List Char) : Option (List Char) :=
  scanFor (fun t => (structAt true t).map (fun p => p.1)) s

/-- Search for `label.*?` followed by the structural pattern. -/
def labelSearch (label s : List Char) : Option (List Char) :=
  scanFor (fun t =>
    match litMatch true label t with
    | some r => findStructIC r
    | none => none) s

/-- Suffix `[^>]*>([^<]+)<` shared by the backup patterns: a maximal
non-`>` run, `>`, a nonempty non-`<` capture, then a mandatory `<`. -/
def tailCapture (r : List Char) : Option (List Char) :=
  match r.dropWhile (· ≠ '>') with
  | '>' :: r2 =>
    let cap := r2.takeWhile (· ≠ '<')
    if cap = [] then none
    else
      match r2.dropWhile (· ≠ '<') with
      | '<' :: _ => some cap
      | _ => none
  | _ => none

/-- Backup pattern `label[^>]*>([^<]+)<` at one position. -/
def backup1At (label s : List Char) : Option (List Char) :=
  match litMatch true label s with
  | some r => tailCapture r
  | none => none

/-- Backup pattern `"label"[^>]*>([^<]+)<` at one position. -/
def backup2At (label s : List Char) : Option (List Char) :=
  backup1At ('"' :: (label ++ ['"'])) s

/-- Case-insensitive substring test (for `[^"]*lbl[^"]*` inside a quote-free
run: the two greedy classes cannot cross a quote, so the bracketed part
matches exactly when the label occurs anywhere in the run). -/
def containsIC (pat : List Char) : List Char → Bool
  | [] => (litMatch true pat []).isSome
  | c :: rest => (litMatch true pat (c :: rest)).isSome || containsIC pat rest

/-- Backup pattern `class="[^"]*lbl[^"]*"[^>]*>([^<]+)<` at one position. -/
def backup3At (labelLower s : List Char) : Option (List Char) :=
  match litMatch true "class=\"".toList s with
  | none => none
  | some r =>
    let run := r.takeWhile (· ≠ '"')
    let rest := r.dropWhile (· ≠ '"')
    if containsIC labelLower run then
      match rest with
      | '"' :: r2 => tailCapture r2
      | _ => none
    else none

/-- `TokenDataFetcher.extract_value_by_pattern`: label-anchored structural
search, then the three backup patterns in order; the first capture wins
and is stripped. -/
def extract_value_by_pattern (html label : String) : Option String :=
  let h := html.toList
  let lab := label.toList
  match labelSearch lab h with
  | some cap => some (String.mk (pyStripL cap))
  | none =>
    match scanFor (backup1At lab) h with
    | some cap => some (String.mk (pyStripL cap))
    | none =>
      match scanFor (backup2At lab) h with
      | some cap => some (String.mk (pyStripL cap))
      | none =>
        match scanFor (backup3At (lab.map toLowerA)) h with
        | some cap => some (String.mk (pyStripL cap))
        | none => none

/-! ## GET_POOL: extraction strategy 4 (`TokenDataFetcher.extract_from_script_data`) -/

/-- Quoted key/value pattern `"key":\s*"([^"]+)"` (case-insensitive) at
one position: what strategy 4's patterns can find in a document. -/
def quotedPairAt (key s : List Char) : Option (List Char) :=
  match litMatch true ('"' :: (key ++ ['"', ':'])) s with
  | none => none
  | some r =>
    match r.dropWhile isPySpaceB with
    | '"' :: r2 =>
      let cap := r2.takeWhile (· ≠ '"')
      if cap = [] then none
      else
        match r2.dropWhile (· ≠ '"') with
        | '"' :: _ => some cap
        | _ => none
    | _ => none

/-- First quoted key/value capture for `key` in a document. -/
def findQuotedPair (key html : String) : Option String :=
  (scanFor (quotedPairAt key.toList) html.toList).map String.mk

/-- `TokenDataFetcher.extract_from_script_data`.  The source initializes
`fdv = liquidity = volume_24h = None`, then loops over its script patterns
calling `re.findall`; on the first pattern with matches it only logs the
match count and breaks — the three metric variables are never assigned —
and returns `fdv or "0", liquidity or "0", volume_24h or "0"`. -/
def extract_from_script_data (html : String) : String × String × String :=
  let _scan := findQuotedPair "fdv" html
  let fdv : Option String := none
  let liquidity : Option String := none
  let volume24h : Option String := none
  (orZeroO fdv, orZeroO liquidity, orZeroO volume24h)

/-! ## GET_POOL: the extraction pipeline (`TokenDataFetcher.parse_html_data`)

Strategy 3 (`extract_value_by_class`) runs the raw document through the
BeautifulSoup HTML parser; that external library is modelled as an
explicit collaborator parameter `byClass` mapping the document and the
keyword list to the text found (as on the Python side, `None` when
nothing matched). -/

/-- The fall-through of `parse_html_data` when strategy 1 produced
`("0","0","0")`: strategy 2 per label, strategy 3 (`byClass`) for each
still-falsy metric, strategy 4 when all three are still falsy; every
field is finally coerced through `x or "0"`. -/
def fallback_strategies (byClass : String → List String → Option String)
    (html : String) : String × String × String :=
  let f1 := extract_value_by_pattern html "FDV"
  let l1 := extract_value_by_pattern html "liq"
  let v1 := extract_value_by_pattern html "24h VOL"
  let f2 := if optFalsy f1 then byClass html ["fdv", "market-cap", "fully-diluted"] else f1
  let l2 := if optFalsy l1 then byClass html ["liquidity", "liq"] else l1
  let v2 := if optFalsy v1 then byClass html ["volume", "24h-volume", "vol"] else v1
  if optFalsy f2 ∧ optFalsy l2 ∧ optFalsy v2 then
    let r4 := extract_from_script_data html
    (orZero r4.1, orZero r4.2.1, orZero r4.2.2)
  else (orZeroO f2, orZeroO l2, orZeroO v2)

/-- `TokenDataFetcher.parse_html_data`: the pipeline commits to the
triple of strategy 1 unless it is `("0","0","0")`, in which case it runs
the fall-through strategies; every field is coerced through `x or "0"`. -/
def parse_html_data (byClass : String → List String → Option String)
    (html : String) : String × String × String :=
  if (extract_all_values_by_pattern html).1 = "0"
      ∧ (extract_all_values_by_pattern html).2.1 = "0"
      ∧ (extract_all_values_by_pattern html).2.2 = "0" then
    fallback_strategies byClass html
  else
    (orZero (extract_all_values_by_pattern html).1,
     orZero (extract_all_values_by_pattern html).2.1,
     orZero (extract_all_values_by_pattern html).2.2)

/-! ## GET_POOL: fetching and per-row processing -/

/-- Outcome of the one `session.get` in `fetch_token_data`: a response
with its status and body, or a raised `requests.RequestException`
(timeout or transport failure). -/
inductive FetchResult where
  | ok (status : Nat) (body : String)
  | exn
  deriving DecidableEq

/-- `TokenDataFetcher.fetch_token_data`: parse the body of a 200
response; any other status, and any transport exception, yields the
all-zero default without raising. -/
def fetch_token_data (byClass : String → List String → Option String)
    (r : FetchResult) : String × String × String :=
  match r with
  | .ok status body => if status = 200 then parse_html_data byClass body else ("0", "0", "0")
  | .exn => ("0", "0", "0")

/-- `TokenDataFetcher.process_single_row`: rows whose network or address
cell is missing or strips to the empty string get the default triple
without a fetch; otherwise the fetch/extract result is returned, tagged
with the task's row index. -/
def process_single_row (byClass : String → List String → Option String)
    (i : Nat) (netC addrC : Cell) (fr : FetchResult) :
    Nat × (String × String × String) :=
  if cellIsNa netC ∨ cellIsNa addrC ∨
      pyStrip (cellToStr netC) = "" ∨ pyStrip (cellToStr addrC) = "" then
    (i, ("0", "0", "0"))
  else (i, fetch_token_data byClass fr)

/-- The input table as `process_excel_file` sees it: its column count and
the first two cells of each row. -/
structure InTable where
  ncols : Nat
  rows : List (Cell × Cell)

/-- The metrics computed for row `i` of a table (the second component of
`process_single_row` on that row's cells and fetch outcome). -/
def row_result (byClass : String → List String → Option String)
    (t : InTable) (fetch : Nat → FetchResult) (i : Nat) :
    String × String × String :=
  let r := t.rows.getD i (Cell.nan, Cell.nan)
  (process_single_row byClass i r.1 r.2 (fetch i)).2

/-- `TokenDataFetcher.process_excel_file`.  `tbl = none` models a failed
`load_excel_data` (the source re-raises); the column-padding loop grows
the table to at least five columns, after which the source assigns a
five-name column list — a table that already had six or more columns
makes that assignment raise `ValueError` (modelled by `none`).  `fetch`
gives each row's network outcome, and `order` is the sequence in which
`as_completed` yields the finished futures; each result is written at its
own row index.  The returned list holds the three metric columns per row. -/
def process_excel_file (tbl : Option InTable)
    (fetch : Nat → FetchResult)
    (byClass : String → List String → Option String)
    (order : List Nat) : Option (List (String × String × String)) :=
  match tbl with
  | none => none
  | some t =>
    if max t.ncols 5 = 5 then
      some (order.foldl
        (fun tb j => tb.set j (row_result byClass t fetch j))
        (List.replicate t.rows.length ("", "", "")))
    else none

/-! ## GET_POOL: the aggregation lock discipline

The body of the result loop in `process_excel_file` writes the three
metric columns of one row inside `with self.lock:`.  The interleaving of
the worker threads is modelled as a small-step transition system: each
completion event for row `i` acquires the lock, performs its three field
writes one at a time, and releases.  `written i` counts how many of row
`i`'s metric fields have been written. -/

/-- Global state of the aggregation: the lock holder (if any), each
completion event's program counter (0 pending, 1–3 about to perform its
first/second/third field write, 4 about to release, 5 done), and each
row's count of written metric fields. -/
structure PoolState where
  lock : Option Nat
  pc : Nat → Nat
  written : Nat → Nat

/-- Initial state: lock free, nothing written. -/
def poolInit : PoolState := ⟨none, fun _ => 0, fun _ => 0⟩

/-- Pointwise update of a `Nat`-indexed map. -/
def updN (f : Nat → Nat) (i v : Nat) : Nat → Nat :=
  fun j => if j = i then v else f j

/-- One interleaved step of the aggregation loop: acquiring the lock,
one of the three field writes of the critical section, or the release. -/
inductive poolStep : PoolState → PoolState → Prop
  | acquire (s : PoolState) (i : Nat) (hpc : s.pc i = 0) (hl : s.lock = none) :
      poolStep s ⟨some i, updN s.pc i 1, s.written⟩
  | writeFdv (s : PoolState) (i : Nat) (hpc : s.pc i = 1) :
      poolStep s ⟨s.lock, updN s.pc i 2, updN s.written i 1⟩
  | writeLiq (s : PoolState) (i : Nat) (hpc : s.pc i = 2) :
      poolStep s ⟨s.lock, updN s.pc i 3, updN s.written i 2⟩
  | writeVol (s : PoolState) (i : Nat) (hpc : s.pc i = 3) :
      poolStep s ⟨s.lock, updN s.pc i 4, updN s.written i 3⟩
  | release (s : PoolState) (i : Nat) (hpc : s.pc i = 4) (hl : s.lock = some i) :
      poolStep s ⟨none, updN s.pc i 5, s.written⟩

/-- States reachable from the initial state by interleaved steps. -/
def poolReachable (s : PoolState) : Prop :=
  Relation.ReflTransGen poolStep poolInit s

/-- Field count determined by a program counter value. -/
def writtenOf (p : Nat) : Nat :=
  if p ≤ 1 then 0 else if p = 2 then 1 else if p = 3 then 2 else 3

/-- Inductive invariant: any event inside the critical section holds the
lock, and each row's written-field count is determined by its event's
program counter. -/
def PoolInv (s : PoolState) : Prop :=
  (∀ i, 1 ≤ s.pc i → s.pc i ≤ 4 → s.lock = some i) ∧
  (∀ i, s.written i = writtenOf (s.pc i))

/-! ## Concrete documents used in the theorems below -/

/-- The strategy-1 marker, as a string. -/
def markerS : String :=
  "</svg></span></div><dd class=\"static-box-value\">" ++
  "<span class=\"sc-65e7f566-0 bxaIIt base-text\"><span>"

/-- The strategy-1 closing tags, as a string. -/
def closeS : String := "</span></span>"

/-- A document in which the marker occurs exactly three times, with the
captured texts of the specification's scenario. -/
def exHtml3 : String :=
  markerS ++ "$1.2M" ++ closeS ++ markerS ++ "$500K" ++ closeS ++ markerS ++ "$45.3K" ++ closeS

/-- A document in which the marker occurs exactly twice. -/
def exHtml2 : String :=
  markerS ++ "X" ++ closeS ++ markerS ++ "Y" ++ closeS

/-- A document with exactly three marker occurrences whose second capture
is a single space (which strips to the empty string). -/
def exHtmlWs : String :=
  markerS ++ "A" ++ closeS ++ markerS ++ " " ++ closeS ++ markerS ++ "B" ++ closeS

/-- A document with exactly three marker occurrences and ordinary captures. -/
def exHtmlC2 : String :=
  markerS ++ "5" ++ closeS ++ markerS ++ "7" ++ closeS ++ markerS ++ "9" ++ closeS

/-- A document containing the quoted pair `"fdv":"123"`. -/
def exScript : String := "<script>\"fdv\":\"123\"</script>"

/-! # Theorems

## Helper lemmas about hexadecimal parsing -/

/-- A hex digit differs from any character that is not a hex digit. -/
theorem hex_char_ne {c x : Char} (h : isHexDigitB c = true) (hx : isHexDigitB x = false) :
    c ≠ x := by
  intro he
  subst he
  rw [hx] at h
  exact Bool.noConfusion h

/-- A hex digit is not Python whitespace. -/
theorem hex_not_space {c : Char} (h : isHexDigitB c = true) : isPySpaceB c = false := by
  have w1 : c ≠ ' ' := hex_char_ne h (by decide)
  have w2 : c ≠ '\t' := hex_char_ne h (by decide)
  have w3 : c ≠ '\n' := hex_char_ne h (by decide)
  have w4 : c ≠ '\r' := hex_char_ne h (by decide)
  have w5 : c ≠ '\x0b' := hex_char_ne h (by decide)
  have w6 : c ≠ '\x0c' := hex_char_ne h (by decide)
  simp [isPySpaceB, w1, w2, w3, w4, w5, w6]

/-- Dropping under a predicate that fails on every element is the identity. -/
theorem dropWhile_of_all_false {p : Char → Bool} {l : List Char}
    (h : ∀ c ∈ l, p c = false) : l.dropWhile p = l := by
  cases l with
  | nil => rfl
  | cons a t => rw [List.dropWhile_cons, h a (List.mem_cons_self a t)]; simp

/-- Whitespace trimming is the identity on a list of hex digits. -/
theorem trimWs_of_all_hex {l : List Char} (h : l.all isHexDigitB = true) : trimWs l = l := by
  have hns : ∀ c ∈ l, isPySpaceB c = false :=
    fun c hc => hex_not_space (List.all_eq_true.mp h c hc)
  unfold trimWs
  rw [dropWhile_of_all_false hns,
      dropWhile_of_all_false (fun c hc => hns c (List.mem_reverse.mp hc)),
      List.reverse_reverse]

/-- Unfolding `parseRest` on a digit that is not an underscore. -/
theorem parseRest_cons_hex {acc : Nat} {c : Char} {t : List Char} {d : Nat}
    (hne : c ≠ '_') (hd : hexVal? c = some d) :
    parseRest acc (c :: t) = parseRest (16 * acc + d) t := by
  rw [parseRest.eq_def]
  dsimp only
  rw [if_neg hne, hd]

/-- The continuation parser succeeds on a list of hex digits and folds up
their big-endian value. -/
theorem parseRest_of_all_hex :
    ∀ (l : List Char) (acc : Nat), l.all isHexDigitB = true →
      parseRest acc l = some (l.foldl hexStep acc) := by
  intro l
  induction l with
  | nil => intro acc _; rfl
  | cons c t ih =>
    intro acc h
    rw [List.all_cons, Bool.and_eq_true] at h
    obtain ⟨hc, ht⟩ := h
    obtain ⟨d, hd⟩ := Option.isSome_iff_exists.mp hc
    rw [parseRest_cons_hex (hex_char_ne hc (by decide)) hd, ih _ ht, List.foldl_cons]
    have hstep : hexStep acc c = 16 * acc + d := by unfold hexStep; rw [hd]; rfl
    rw [hstep]

/-- Unfolding `parseCore` on a leading digit. -/
theorem parseCore_cons_hex {c : Char} {t : List Char} {d : Nat} (hd : hexVal? c = some d) :
    parseCore (c :: t) = parseRest d t := by
  rw [parseCore.eq_def]
  dsimp only
  rw [hd]

/-- The digit parser succeeds on a nonempty list of hex digits. -/
theorem parseCore_of_all_hex {c : Char} {t : List Char}
    (h : (c :: t).all isHexDigitB = true) :
    parseCore (c :: t) = some (hexDigitsVal (c :: t)) := by
  have h2 := h
  rw [List.all_cons, Bool.and_eq_true] at h2
  obtain ⟨hc, ht⟩ := h2
  obtain ⟨d, hd⟩ := Option.isSome_iff_exists.mp hc
  rw [parseCore_cons_hex hd, parseRest_of_all_hex t d ht]
  unfold hexDigitsVal
  rw [List.foldl_cons]
  have hstep : hexStep 0 c = d := by simp [hexStep, hd]
  rw [hstep]

/-- The head of the remainder of a `dropWhile` fails the predicate. -/
theorem head_dropWhile_false {p : Char → Bool} :
    ∀ (l : List Char) {c : Char} {t : List Char}, l.dropWhile p = c :: t → p c = false := by
  intro l
  induction l with
  | nil => intro c t h; exact absurd h (by simp)
  | cons a r ih =>
    intro c t h
    rw [List.dropWhile_cons] at h
    by_cases ha : p a = true
    · rw [if_pos ha] at h; exact ih h
    · rw [if_neg ha] at h
      cases h
      exact Bool.not_eq_true _ ▸ ha

/-- Unfolding `parseSign` when the head is not a sign. -/
theorem parseSign_no_sign {c : Char} {t : List Char} (h1 : c ≠ '+') (h2 : c ≠ '-') :
    parseSign (c :: t) = (1, c :: t) := by
  rw [parseSign.eq_def]
  dsimp only
  rw [if_neg h1, if_neg h2]

/-- Unfolding `dropHexPre` when the head is not `'0'`. -/
theorem dropHexPre_no_mark {c : Char} (t : List Char) (hc0 : c ≠ '0') :
    dropHexPre (c :: t) = (false, c :: t) := by
  cases t with
  | nil => rfl
  | cons c2 r =>
    rw [dropHexPre.eq_def]
    dsimp only
    rw [if_neg (fun hh => hc0 hh.1)]

/-- Unfolding `parseDigits` on a head that is not an underscore. -/
theorem parseDigits_no_underscore {b : Bool} {c : Char} {t : List Char} (hne : c ≠ '_') :
    parseDigits b (c :: t) = parseCore (c :: t) := by
  rw [parseDigits.eq_def]
  dsimp only
  rw [if_neg hne]

/-- Python `int(_, 16)` on a nonempty hex-digit list whose first digit is
not `'0'` returns its big-endian value. -/
theorem pyIntHex16_of_all_hex {c : Char} {t : List Char}
    (hall : (c :: t).all isHexDigitB = true) (hc0 : c ≠ '0') :
    pyIntHex16 (c :: t) = some ((hexDigitsVal (c :: t) : Int)) := by
  have hc : isHexDigitB c = true := by
    have h2 := hall
    rw [List.all_cons, Bool.and_eq_true] at h2
    exact h2.1
  unfold pyIntHex16
  rw [trimWs_of_all_hex hall,
      parseSign_no_sign (hex_char_ne hc (by decide)) (hex_char_ne hc (by decide))]
  dsimp only
  rw [dropHexPre_no_mark t hc0]
  dsimp only
  rw [parseDigits_no_underscore (hex_char_ne hc (by decide)), parseCore_of_all_hex hall]
  dsimp only
  rw [Int.one_mul]

/-- Leading `'0'` digits do not change the big-endian value. -/
theorem hexDigitsVal_dropZeros (l : List Char) :
    hexDigitsVal (l.dropWhile (· = '0')) = hexDigitsVal l := by
  induction l with
  | nil => rfl
  | cons c t ih =>
    rw [List.dropWhile_cons]
    by_cases hc : c = '0'
    · subst hc
      rw [if_pos (by decide), ih]
      unfold hexDigitsVal
      rw [List.foldl_cons]
      have hstep : hexStep 0 '0' = 0 := by decide
      rw [hstep]
    · rw [if_neg (by simpa using hc)]

/-- The big-endian value of a list of `'0'` characters is zero. -/
theorem hexDigitsVal_zeros {l : List Char} (h : ∀ c ∈ l, c = '0') : hexDigitsVal l = 0 := by
  induction l with
  | nil => rfl
  | cons c t ih =>
    have hc := h c (List.mem_cons_self c t)
    subst hc
    unfold hexDigitsVal
    rw [List.foldl_cons]
    have hstep : hexStep 0 '0' = 0 := by decide
    rw [hstep]
    exact ih (fun x hx => h x (List.mem_cons.mpr (Or.inr hx)))

/-- Any `List.all` property survives `dropWhile`. -/
theorem all_dropWhile {p q : Char → Bool} {l : List Char} (h : l.all q = true) :
    (l.dropWhile p).all q = true := by
  induction l with
  | nil => exact h
  | cons a t ih =>
    rw [List.all_cons, Bool.and_eq_true] at h
    rw [List.dropWhile_cons]
    by_cases hp : p a = true
    · rw [if_pos hp]; exact ih h.2
    · rw [if_neg hp, List.all_cons, Bool.and_eq_true]; exact ⟨h.1, h.2⟩

/-- Central decoding lemma: on a spec-side hex string, `hex_to_decimal`
computes the big-endian value of the digits after the optional prefix. -/
theorem hex_to_decimal_of_specHex {s : String} (h : specHexString s = true) :
    hex_to_decimal s = hexStringValue s := by
  unfold specHexString at h
  unfold hex_to_decimal hexTransform hexStringValue
  by_cases hp : s.toList.take 2 = ['0', 'x']
  · rw [if_pos hp] at h
    have hsm : stripHexMark s.toList = s.toList.drop 2 := by
      unfold stripHexMark; rw [if_pos hp]
    rw [hsm]
    cases hz : (s.toList.drop 2).dropWhile (· = '0') with
    | nil =>
      rw [if_pos rfl]
      have hzs : ∀ c ∈ s.toList.drop 2, c = '0' := by
        intro c hc
        have hq := List.dropWhile_eq_nil_iff.mp hz c hc
        simpa using hq
      rw [hexDigitsVal_zeros hzs]
      decide
    | cons c2 t2 =>
      rw [if_neg (by simp)]
      have hallhex : (c2 :: t2).all isHexDigitB = true := by
        rw [← hz]; exact all_dropWhile h
      have hc0 : c2 ≠ '0' := by
        have h0 := head_dropWhile_false (s.toList.drop 2) hz
        intro he; rw [he] at h0; exact absurd h0 (by decide)
      rw [pyIntHex16_of_all_hex hallhex hc0]
      dsimp only
      rw [← hz, hexDigitsVal_dropZeros]
  · rw [if_neg hp] at h
    rw [Bool.and_eq_true] at h
    obtain ⟨hne, hall⟩ := h
    have hsm : stripHexMark s.toList = s.toList := by
      unfold stripHexMark; rw [if_neg hp]
    rw [hsm]
    cases hz : s.toList.dropWhile (· = '0') with
    | nil =>
      rw [if_pos rfl]
      have hzs : ∀ c ∈ s.toList, c = '0' := by
        intro c hc
        have hq := List.dropWhile_eq_nil_iff.mp hz c hc
        simpa using hq
      rw [hexDigitsVal_zeros hzs]
      decide
    | cons c2 t2 =>
      rw [if_neg (by simp)]
      have hallhex : (c2 :: t2).all isHexDigitB = true := by
        rw [← hz]; exact all_dropWhile hall
      have hc0 : c2 ≠ '0' := by
        have h0 := head_dropWhile_false s.toList hz
        intro he; rw [he] at h0; exact absurd h0 (by decide)
      rw [pyIntHex16_of_all_hex hallhex hc0]
      dsimp only
      rw [← hz, hexDigitsVal_dropZeros]

/-! ## Claims C3, C4, C10: the decimals tool -/

/-- C3 counterexample: an input row `("bsc", "")` whose contract address
is a blank string is not caught by the `'nan'` guard of `process_excel`
(only cells that stringify to `"nan"` are), so `get_token_decimals` finds
the bsc endpoint and an `eth_call` request is issued, with the normalized
address `"0x"` — refuting "no network request is issued for that row"
(the decimals value itself still defaults to 18 when the call fails). -/
theorem decimals_blank_address_cex :
    process_excel_row (.str "bsc") (.str "") none =
      (18, some ⟨"https://bsc-dataseed.binance.org", "0x", "0x313ce567"⟩)
    ∧ (process_excel_row (.str "bsc") (.str "") none).2 ≠ none := by
  constructor
  · rfl
  · decide

/-- C3 (amended): a row of the decimals variant whose network or address
cell is missing (pandas NaN, which stringifies to `"nan"` — the only
blank shape the guard catches) receives the default decimals value 18 and
no network request is issued for that row; a blank address *string*, by
contrast, is forwarded (see the counterexample). -/
theorem decimals_default_on_missing :
    ∀ (c : Cell) (resp : Option RpcResponse),
      process_excel_row c Cell.nan resp = (18, none)
      ∧ process_excel_row Cell.nan c resp = (18, none) := by
  intro c resp
  constructor
  · unfold process_excel_row
    rw [if_pos (Or.inr (by decide))]
  · unfold process_excel_row
    rw [if_pos (Or.inl (by decide))]

/-- C4 counterexample: the RPC result string `"f_f"` is present and
nonempty but malformed — it is not a hex string (tolerances or not),
since `'_'` is not a hex digit — so by the claim the decimals value
should be 18; but Python `int(_, 16)` accepts single underscores between
digits, and `get_token_decimals` returns 255. -/
theorem get_token_decimals_cex :
    specHexString "f_f" = false
    ∧ (get_token_decimals "bsc" "0xabc" (some ⟨200, some "f_f"⟩)).1 = 255
    ∧ ((255 : Int) ≠ 18) := by
  refine ⟨by decide, by decide, by decide⟩

/-- C4 (amended): for a supported network and a 200 response whose
`result` field is a nonempty hex string (optional `0x` prefix, hex
digits, leading zeros tolerated), `get_token_decimals` returns the
big-endian integer decoded from it; it returns 18 when the network is
unsupported, when the `result` field is absent or empty, when the
transport fails, and when the transformed string (one `0x` prefix and
leading zeros stripped) fails Python base-16 parsing.  Result strings
outside both classes — not hex strings, yet accepted by Python's parser,
such as `"f_f"` or `"0x ff"` — decode to their parsed value instead of
defaulting to 18. -/
theorem get_token_decimals_amended :
    (∀ (net addr url s : String) (resp : Option RpcResponse),
      get_rpc_endpoint net = some url → resp = some ⟨200, some s⟩ → s ≠ "" →
      specHexString s = true →
      (get_token_decimals net addr resp).1 = hexStringValue s)
    ∧ (∀ (net addr : String) (resp : Option RpcResponse), get_rpc_endpoint net = none →
        get_token_decimals net addr resp = (18, none))
    ∧ (∀ (net addr url : String) (st : Nat), get_rpc_endpoint net = some url →
        (get_token_decimals net addr (some ⟨st, none⟩)).1 = 18
        ∧ (get_token_decimals net addr (some ⟨st, some ""⟩)).1 = 18
        ∧ (get_token_decimals net addr none).1 = 18)
    ∧ (∀ s : String, pyIntHex16 (hexTransform s) = none → hex_to_decimal s = 18) := by
  refine ⟨?_, ?_, ?_, ?_⟩
  · intro net addr url s resp hurl hresp hs hhex
    subst hresp
    unfold get_token_decimals
    rw [hurl]
    have hcall : call_contract_method (some ⟨200, some s⟩) = some s := by
      simp [call_contract_method, hs]
    rw [hcall]
    exact hex_to_decimal_of_specHex hhex
  · intro net addr resp hurl
    unfold get_token_decimals
    rw [hurl]
  · intro net addr url st hurl
    refine ⟨?_, ?_, ?_⟩
    · unfold get_token_decimals
      rw [hurl]
      have hcall : call_contract_method (some ⟨st, none⟩) = none := by
        by_cases hst : st = 200 <;> simp [call_contract_method, hst]
      rw [hcall]
    · unfold get_token_decimals
      rw [hurl]
      have hcall : call_contract_method (some ⟨st, some ""⟩) = none := by
        by_cases hst : st = 200 <;> simp [call_contract_method, hst]
      rw [hcall]
    · unfold get_token_decimals
      rw [hurl]
      rfl
  · intro s hnone
    unfold hex_to_decimal
    rw [hnone]

/-- Witness for C4: the specification's scenario — an ethereum row whose
RPC result is `"0x06"` yields decimals 6. -/
theorem get_token_decimals_amended_witness :
    (get_token_decimals "ethereum" "0xA0b8" (some ⟨200, some "0x06"⟩)).1 = 6 :=
  (get_token_decimals_amended.1 "ethereum" "0xA0b8" "https://eth.llamarpc.com" "0x06"
    (some ⟨200, some "0x06"⟩) (by decide) rfl (by decide) (by decide)).trans (by decide)

/-- C10 counterexample: `"0x ff"` cannot be parsed as hexadecimal —
Python's own `int("0x ff", 16)` raises, and it is not an all-zeros
string — yet `hex_to_decimal` returns 255 rather than 18: the code first
strips the `0x` prefix, and the remainder `" ff"` is accepted by `int`
because surrounding whitespace is tolerated there. -/
theorem hex_to_decimal_cex :
    (pyIntHex16 "0x ff".toList).isSome = false
    ∧ allZerosHex "0x ff" = false
    ∧ specHexString "0x ff" = false
    ∧ hex_to_decimal "0x ff" = 255
    ∧ ((255 : Int) ≠ 18) := by
  refine ⟨by decide, by decide, by decide, by decide, by decide⟩

/-- C10 (amended): `hex_to_decimal` is total and never raises (every
exception path of the source maps to a return value): every string whose
characters after an optional literal `0x` prefix are all zeros —
including the bare `"0x"` — returns 0; it returns 18 whenever the
transformed remainder (one `0x` prefix and leading zeros stripped) fails
Python base-16 parsing, and the parsed value whenever that parse
succeeds.  A string may fail to parse as hexadecimal as a whole and still
be accepted after the transformation (see the counterexample). -/
theorem hex_to_decimal_total_amended :
    (∀ s : String, allZerosHex s = true → hex_to_decimal s = 0)
    ∧ (∀ s : String, pyIntHex16 (hexTransform s) = none → hex_to_decimal s = 18)
    ∧ (∀ (s : String) (v : Int), pyIntHex16 (hexTransform s) = some v →
        hex_to_decimal s = v) := by
  refine ⟨?_, ?_, ?_⟩
  · intro s hz
    unfold allZerosHex at hz
    unfold hex_to_decimal hexTransform
    have hnil : (stripHexMark s.toList).dropWhile (· = '0') = [] := by
      apply List.dropWhile_eq_nil_iff.mpr
      intro x hx
      have := List.all_eq_true.mp hz x hx
      simpa using this
    rw [hnil, if_pos rfl]
    decide
  · intro s h
    unfold hex_to_decimal
    rw [h]
  · intro s v h
    unfold hex_to_decimal
    rw [h]

/-- Witness for C10: `"0x00"` parses to 0, `"zz"` fails the transformed
parse and defaults to 18, and `"0x12"` parses to the value 18 without
being a failure. -/
theorem hex_to_decimal_total_amended_witness :
    hex_to_decimal "0x00" = 0 ∧ hex_to_decimal "zz" = 18 ∧ hex_to_decimal "0x12" = 18 :=
  ⟨hex_to_decimal_total_amended.1 "0x00" (by decide),
   hex_to_decimal_total_amended.2.1 "zz" (by decide),
   hex_to_decimal_total_amended.2.2 "0x12" 18 (by decide)⟩

/-! ## Claims C1, C2, C5, C6: the metrics pipeline -/

/-- C1: for every raw document in which the structural marker pattern
occurs exactly three times, strategy 1 (`extract_all_values_by_pattern`)
returns the three captured texts, stripped, in document order as
(fdv, liquidity, volume24h); for every document in which it occurs
0, 1, 2, or 4 or more times, strategy 1 returns `("0","0","0")`. -/
theorem strategy1_exact_triple :
    (∀ (h : String) (a b c : List Char), findAllMarker h.toList = [a, b, c] →
      extract_all_values_by_pattern h =
        (String.mk (pyStripL a), String.mk (pyStripL b), String.mk (pyStripL c)))
    ∧ (∀ h : String, (findAllMarker h.toList).length ≠ 3 →
      extract_all_values_by_pattern h = ("0", "0", "0")) := by
  constructor
  · intro h a b c hf
    unfold extract_all_values_by_pattern
    rw [hf]
  · intro h hne
    unfold extract_all_values_by_pattern
    rcases hf : findAllMarker h.toList with _ | ⟨a, _ | ⟨b, _ | ⟨c, _ | ⟨d, t⟩⟩⟩⟩
    · rfl
    · rfl
    · rfl
    · exact absurd (show (findAllMarker h.toList).length = 3 by rw [hf]; rfl) hne
    · rfl

/-- Witness for C1: the specification's scenario document with captures
`$1.2M`, `$500K`, `$45.3K` (exactly three marker occurrences), and a
document with two occurrences. -/
theorem strategy1_exact_triple_witness :
    extract_all_values_by_pattern exHtml3 = ("$1.2M", "$500K", "$45.3K")
    ∧ extract_all_values_by_pattern exHtml2 = ("0", "0", "0") := by
  constructor
  · exact (strategy1_exact_triple.1 exHtml3 "$1.2M".toList "$500K".toList "$45.3K".toList
      (by decide)).trans (by decide)
  · exact strategy1_exact_triple.2 exHtml2 (by decide)

/-- C2 counterexample: on this document strategy 1 yields exactly three
matches, with triple `("A", "", "B")` (the middle capture is a single
space, which strips to the empty string), but `parse_html_data` returns
`("A", "0", "B")`: the final `x or "0"` coercion changes the committed
triple, refuting "returns that triple unchanged".  The `byClass`
collaborator is irrelevant on this path and instantiated by the constant
`none`. -/
theorem pipeline_commit_cex :
    findAllMarker exHtmlWs.toList = [['A'], [' '], ['B']]
    ∧ extract_all_values_by_pattern exHtmlWs = ("A", "", "B")
    ∧ parse_html_data (fun _ _ => none) exHtmlWs = ("A", "0", "B")
    ∧ (("A", "", "B") : String × String × String) ≠ ("A", "0", "B") := by
  refine ⟨by decide, by decide, by decide, by decide⟩

/-- C2 (amended): the pipeline gates on the literal triple `("0","0","0")`:
whenever strategy 1 returns any other triple, `parse_html_data` commits to
it with each empty field coerced to `"0"`, and strategies 2–4 do not run;
strategies 2–4 run exactly when strategy 1 returned `("0","0","0")` —
which happens both when the match count is not 3 and when exactly three
captures each strip to `"0"`. -/
theorem pipeline_commit_amended (byClass : String → List String → Option String)
    (html : String) (f l v : String)
    (he : extract_all_values_by_pattern html = (f, l, v))
    (hnz : ¬(f = "0" ∧ l = "0" ∧ v = "0")) :
    parse_html_data byClass html = (orZero f, orZero l, orZero v) := by
  unfold parse_html_data
  rw [he]
  exact if_neg hnz

/-- Witness for C2 (amended): a three-match document with nonzero
captures is committed unchanged. -/
theorem pipeline_commit_amended_witness :
    parse_html_data (fun _ _ => none) exHtmlC2 = ("5", "7", "9") :=
  (pipeline_commit_amended (fun _ _ => none) exHtmlC2 "5" "7" "9" (by decide)
    (by decide)).trans (by decide)

/-- C5: `fetch_token_data` returns the all-zero default, without raising,
for a 404 or any other non-200 status and for any timeout or transport
exception; it returns the parsed metrics exactly for a 200 response. -/
theorem fetch_default_on_failure :
    (∀ (byClass : String → List String → Option String) (status : Nat) (body : String),
      status ≠ 200 → fetch_token_data byClass (.ok status body) = ("0", "0", "0"))
    ∧ (∀ byClass : String → List String → Option String,
        fetch_token_data byClass .exn = ("0", "0", "0"))
    ∧ (∀ (byClass : String → List String → Option String) (body : String),
        fetch_token_data byClass (.ok 200 body) = parse_html_data byClass body) := by
  refine ⟨?_, ?_, ?_⟩
  · intro byC st b hs
    unfold fetch_token_data
    exact if_neg hs
  · intro byC
    rfl
  · intro byC b
    unfold fetch_token_data
    exact if_pos rfl

/-- Witness for C5: a 404 response yields the default triple. -/
theorem fetch_default_on_failure_witness :
    fetch_token_data (fun _ _ => none) (.ok 404 "page") = ("0", "0", "0") :=
  fetch_default_on_failure.1 (fun _ _ => none) 404 "page" (by decide)

/-- C6 (code_bug): strategy 4 never extracts anything.  The pattern
`"fdv":"..."` does occur in `exScript` and its capture is `"123"`, as
`findQuotedPair` shows, but `extract_from_script_data` returns
`("0","0","0")` — on this input and on every input — because the
source's loop over its script patterns only logs the match count and
breaks, never assigning the metric variables (the source itself comments
the JSON parsing as still to be done). -/
theorem script_data_never_extracts :
    findQuotedPair "fdv" exScript = some "123"
    ∧ extract_from_script_data exScript = ("0", "0", "0")
    ∧ (∀ html : String, extract_from_script_data html = ("0", "0", "0")) := by
  refine ⟨by decide, rfl, fun _ => rfl⟩

/-! ## Helper lemmas for the index-addressed aggregation (claims C7, C8) -/

/-- Index-addressed writes preserve the table's length. -/
theorem length_foldl_set {α : Type} (m : Nat → α) :
    ∀ (os : List Nat) (tb : List α),
      (os.foldl (fun tb j => tb.set j (m j)) tb).length = tb.length := by
  intro os
  induction os with
  | nil => intro tb; rfl
  | cons k os ih =>
    intro tb
    rw [List.foldl_cons, ih]
    simp [List.length_set]

/-- Reading back an in-range index just written. -/
theorem getD_set_self {α : Type} :
    ∀ (l : List α) (i : Nat) (v d : α), i < l.length → (l.set i v).getD i d = v := by
  intro l
  induction l with
  | nil => intro i v d h; exact absurd h (by simp)
  | cons a t ih =>
    intro i v d h
    cases i with
    | zero => rfl
    | succ n =>
      rw [List.set_cons_succ, List.getD_cons_succ]
      exact ih n v d (Nat.lt_of_succ_lt_succ (by simpa using h))

/-- A write at one index does not change reads at another. -/
theorem getD_set_ne {α : Type} :
    ∀ (l : List α) (i j : Nat) (v d : α), i ≠ j → (l.set i v).getD j d = l.getD j d := by
  intro l
  induction l with
  | nil => intro i j v d _; rfl
  | cons a t ih =>
    intro i j v d h
    cases i with
    | zero =>
      cases j with
      | zero => exact absurd rfl h
      | succ n => rw [List.set_cons_zero, List.getD_cons_succ, List.getD_cons_succ]
    | succ n =>
      cases j with
      | zero => rw [List.set_cons_succ, List.getD_cons_zero, List.getD_cons_zero]
      | succ k =>
        rw [List.set_cons_succ, List.getD_cons_succ, List.getD_cons_succ]
        exact ih n k v d (fun he => h (by rw [he]))

/-- A row not on the completion list is untouched by the write loop. -/
theorem foldl_set_getD_not_mem {α : Type} (m : Nat → α) (d : α) :
    ∀ (os : List Nat) (tb : List α) (j : Nat), j ∉ os →
      (os.foldl (fun tb k => tb.set k (m k)) tb).getD j d = tb.getD j d := by
  intro os
  induction os with
  | nil => intro tb j _; rfl
  | cons k os ih =>
    intro tb j hj
    rw [List.foldl_cons, ih _ j (fun hm => hj (List.mem_cons.mpr (Or.inr hm)))]
    exact getD_set_ne tb k j (m k) d (fun he => hj (he ▸ List.mem_cons_self k os))

/-- A row on the completion list ends up holding its own result, whatever
the order of the other writes: all writes to index `j` carry the same
value `m j`, so the last one wins and equals `m j`. -/
theorem foldl_set_getD_mem {α : Type} (m : Nat → α) (d : α) :
    ∀ (os : List Nat) (tb : List α) (j : Nat), j ∈ os → j < tb.length →
      (os.foldl (fun tb k => tb.set k (m k)) tb).getD j d = m j := by
  intro os
  induction os with
  | nil => intro tb j hj _; exact absurd hj (by simp)
  | cons k os ih =>
    intro tb j hj hlt
    rw [List.foldl_cons]
    by_cases hm : j ∈ os
    · exact ih _ j hm (by simpa [List.length_set] using hlt)
    · have hjk : j = k := by
        rcases List.mem_cons.mp hj with h | h
        · exact h
        · exact absurd h hm
      subst hjk
      rw [foldl_set_getD_not_mem m d os _ j hm]
      exact getD_set_self tb j (m j) d hlt

/-! ## Claims C7, C8: the run -/

/-- C7 counterexample: an input table with six columns opens fine and has
no rows at all, yet the run raises (`none`): the column-padding loop
leaves six columns in place and the five-name column assignment
`df.columns = list(df.columns[:2]) + [three names]` raises `ValueError`
for any width other than five — refuting "the only process-level failure
is an inability to open the input table". -/
theorem run_six_columns_cex :
    process_excel_file (some ⟨6, []⟩) (fun _ => .exn) (fun _ _ => none) [] = none := rfl

/-- C7 (amended): for every input table that can be opened and has at
most five columns, the metrics run completes without raising, whatever
each row's fetch outcome and completion order — a failure on an
individual row never aborts the run; a table with six or more columns,
however, aborts during column renaming (before any task is scheduled, but
after opening). -/
theorem run_completes_amended (t : InTable) (fetch : Nat → FetchResult)
    (byClass : String → List String → Option String) (order : List Nat)
    (hc : t.ncols ≤ 5) :
    (process_excel_file (some t) fetch byClass order).isSome = true := by
  unfold process_excel_file
  dsimp only
  rw [if_pos (max_eq_right hc)]
  rfl

/-- Witness for C7 (amended): a two-column table with one valid and one
missing row completes even though every fetch raises. -/
theorem run_completes_amended_witness :
    (process_excel_file (some ⟨2, [(.str "t", .str "a"), (.nan, .nan)]⟩)
      (fun _ => .exn) (fun _ _ => none) [0, 1]).isSome = true :=
  run_completes_amended ⟨2, [(.str "t", .str "a"), (.nan, .nan)]⟩ (fun _ => .exn)
    (fun _ _ => none) [0, 1] (by decide)

/-- C8: for every input table of N rows and every completion order (any
permutation of the task indices), the final table has exactly N rows, in
the original input order, with row i holding the metrics computed for
task i — the index-keyed writes commute, so the result is independent of
the completion order. -/
theorem row_order_preserved (t : InTable) (fetch : Nat → FetchResult)
    (byClass : String → List String → Option String) (order : List Nat)
    (hc : t.ncols ≤ 5) (hp : order.Perm (List.range t.rows.length)) :
    process_excel_file (some t) fetch byClass order =
      some ((List.range t.rows.length).map (row_result byClass t fetch)) := by
  unfold process_excel_file
  dsimp only
  rw [if_pos (max_eq_right hc)]
  congr 1
  apply List.ext_getElem
  · rw [length_foldl_set, List.length_replicate, List.length_map, List.length_range]
  · intro i h1 h2
    have hlen1 : i < t.rows.length := by
      rw [length_foldl_set, List.length_replicate] at h1
      exact h1
    rw [← List.getD_eq_getElem _ ("", "", "") h1,
        foldl_set_getD_mem (row_result byClass t fetch) ("", "", "") order _ i
          (hp.mem_iff.mpr (List.mem_range.mpr hlen1))
          (by rw [List.length_replicate]; exact hlen1)]
    simp [List.getElem_map, List.getElem_range]

/-- Witness for C8: two rows whose fetches both fail, completed in
reversed order, still produce the two rows in input order. -/
theorem row_order_preserved_witness :
    process_excel_file (some ⟨2, [(.str "eth", .str "0xa"), (.str "eth", .str "0xb")]⟩)
      (fun _ => .exn) (fun _ _ => none) [1, 0] =
      some [("0", "0", "0"), ("0", "0", "0")] :=
  (row_order_preserved ⟨2, [(.str "eth", .str "0xa"), (.str "eth", .str "0xb")]⟩
    (fun _ => .exn) (fun _ _ => none) [1, 0] (by decide) (by decide)).trans (by decide)

/-! ## Claim C9: no partial writes under the lock discipline -/

/-- The initial state satisfies the invariant. -/
theorem poolInv_init : PoolInv poolInit := by
  constructor
  · intro i h1 _
    simp [poolInit] at h1
  · intro i
    rfl

/-- The invariant is preserved by every step. -/
theorem poolInv_step {s s' : PoolState} (h : poolStep s s') (hi : PoolInv s) : PoolInv s' := by
  obtain ⟨hlock, hwr⟩ := hi
  cases h with
  | acquire i hpc hl =>
    refine ⟨?_, ?_⟩
    · intro j h1 h4
      dsimp only at h1 h4 ⊢
      by_cases hj : j = i
      · rw [hj]
      · simp only [updN, if_neg hj] at h1 h4
        have hcontra := hlock j h1 h4
        rw [hl] at hcontra
        exact Option.noConfusion hcontra
    · intro j
      dsimp only
      by_cases hj : j = i
      · subst hj
        simp only [updN, eq_self_iff_true, if_true]
        rw [hwr j, hpc]
        decide
      · simp only [updN, if_neg hj]
        exact hwr j
  | writeFdv i hpc =>
    refine ⟨?_, ?_⟩
    · intro j h1 h4
      dsimp only at h1 h4 ⊢
      by_cases hj : j = i
      · subst hj
        exact hlock j (by simp [hpc]) (by simp [hpc])
      · simp only [updN, if_neg hj] at h1 h4
        exact hlock j h1 h4
    · intro j
      dsimp only
      by_cases hj : j = i
      · subst hj
        simp only [updN, eq_self_iff_true, if_true]
        decide
      · simp only [updN, if_neg hj]
        exact hwr j
  | writeLiq i hpc =>
    refine ⟨?_, ?_⟩
    · intro j h1 h4
      dsimp only at h1 h4 ⊢
      by_cases hj : j = i
      · subst hj
        exact hlock j (by simp [hpc]) (by simp [hpc])
      · simp only [updN, if_neg hj] at h1 h4
        exact hlock j h1 h4
    · intro j
      dsimp only
      by_cases hj : j = i
      · subst hj
        simp only [updN, eq_self_iff_true, if_true]
        decide
      · simp only [updN, if_neg hj]
        exact hwr j
  | writeVol i hpc =>
    refine ⟨?_, ?_⟩
    · intro j h1 h4
      dsimp only at h1 h4 ⊢
      by_cases hj : j = i
      · subst hj
        exact hlock j (by simp [hpc]) (by simp [hpc])
      · simp only [updN, if_neg hj] at h1 h4
        exact hlock j h1 h4
    · intro j
      dsimp only
      by_cases hj : j = i
      · subst hj
        simp only [updN, eq_self_iff_true, if_true]
        decide
      · simp only [updN, if_neg hj]
        exact hwr j
  | release i hpc hl =>
    refine ⟨?_, ?_⟩
    · intro j h1 h4
      dsimp only at h1 h4 ⊢
      by_cases hj : j = i
      · subst hj
        simp only [updN, eq_self_iff_true, if_true] at h4
        exact absurd h4 (by decide)
      · simp only [updN, if_neg hj] at h1 h4
        have hcontra := hlock j h1 h4
        rw [hl] at hcontra
        exact absurd (Option.some.inj hcontra).symm hj
    · intro j
      dsimp only
      by_cases hj : j = i
      · subst hj
        simp only [updN, eq_self_iff_true, if_true]
        rw [hwr j, hpc]
        decide
      · simp only [updN, if_neg hj]
        exact hwr j

/-- Every reachable state satisfies the invariant. -/
theorem poolInv_reachable {s : PoolState} (h : poolReachable s) : PoolInv s := by
  induction h with
  | refl => exact poolInv_init
  | tail _ hstep ih => exact poolInv_step hstep ih

/-- C9: in the modelled interleaving of the aggregation loop of
`process_excel_file`, whenever the lock is free, every row's metric
columns are observed either untouched (0 fields written) or fully
written (all 3 fields of one completion event): the triple write happens
atomically with respect to any observer outside the critical section, and
a partially-written row is never observable there. -/
theorem no_partial_writes (s : PoolState) (h : poolReachable s)
    (hl : s.lock = none) (i : Nat) :
    s.written i = 0 ∨ s.written i = 3 := by
  obtain ⟨hlock, hwr⟩ := poolInv_reachable h
  rw [hwr i]
  by_cases h1 : 1 ≤ s.pc i
  · by_cases h4 : s.pc i ≤ 4
    · have hcontra := hlock i h1 h4
      rw [hl] at hcontra
      exact Option.noConfusion hcontra
    · right
      unfold writtenOf
      rw [if_neg (by omega), if_neg (by omega), if_neg (by omega)]
  · left
    unfold writtenOf
    rw [if_pos (by omega)]

/-- Witness for C9: the initial state is reachable with the lock free,
and row 0 reads as untouched. -/
theorem no_partial_writes_witness :
    poolInit.written 0 = 0 ∨ poolInit.written 0 = 3 :=
  no_partial_writes poolInit Relation.ReflTransGen.refl rfl 0

end CrossChain
